import Mathlib

/-!
Verification development for the i2shell firmware command parser
(`i2shell.ino`, newer revision embedded in this repository).

The parser is a character-at-a-time state machine (`loop()`): each serial
byte is normalized to uppercase and dispatched against the current state;
goto-style jumps (`goto parse_cmd`, `goto recv_now`) re-process the same
character against a new state.  We embed the machine shallowly:

* bytes and characters are `Nat` taken mod 256 where the C code relies on
  `unsigned char` wraparound;
* the I2C collaborator (`TinyWireM`) is a `BusBehavior`: the statuses its
  `endTransmission` / `requestFrom` return and the bytes a `requestFrom`
  makes available to the drain loop; the receive buffer is the `pending`
  field of the machine;
* every bus call is recorded in order in `calls`; every byte written to
  `SerialUSB` as protocol output is recorded in `out`; the keep-alive
  filler byte is the `to_print` field (0 = disarmed);
* the goto structure is embedded as labelled basic blocks (`blockRun`)
  driven by a fuel-bounded interpreter (`interp`); fuel 3 always suffices,
  which is proved below (claim C9).

The global `ret` of the C source is modelled as a local: every path that
reads it first overwrites it (`ret = read_hex(...)` opens both the
`ST_CMDW` and `ST_CMDR` cases, and no other state reads `ret`).
-/

namespace I2Shell

/-- Parser states, mirroring `enum state` in the source. `ST_RECV` is
assigned just before `goto recv_now` and overwritten with `ST_CMD` inside
the same character step, so it never persists between steps. -/
inductive St
  | ST_CMD
  | ST_ADDR
  | ST_CMDW
  | ST_CMDR
  | ST_RECV
  deriving DecidableEq, Repr

/-- One observable call on the TinyWireM bus collaborator. -/
inductive BusCall
  | beginTransmission (addr : Nat)
  | send (b : Nat)
  | endTransmission
  | requestFrom (addr count : Nat)
  | receive (b : Nat)
  deriving DecidableEq, Repr

/-- Behavior of the bus collaborator: the status `endTransmission` returns,
the status `requestFrom addr count` returns, and the bytes that a
`requestFrom addr count` makes available to the drain loop. -/
structure BusBehavior where
  endStatus : Nat
  reqStatus : Nat → Nat → Nat
  reqBytes : Nat → Nat → List Nat

/-- The machine: the parser globals (`state`, `addr`, `data`, `digits`,
`to_print`) together with the collaborator receive buffer (`pending`),
the trace of bus calls (`calls`) and the protocol output bytes (`out`). -/
structure M where
  state : St
  addr : Nat
  data : Nat
  digits : Nat
  to_print : Nat
  pending : List Nat
  calls : List BusCall
  out : List Nat
  deriving DecidableEq, Repr

/-- `read_hex` from the source: decode character `c`, and on success shift
it into the previous value (an `unsigned char`, hence mod 256).  Returns
(decoded?, updated value).  Note the source accepts the full lowercase
range `a`(97)–`z`(122), not just `a`–`f`. -/
def read_hex (v : Nat) (c : Nat) : Bool × Nat :=
  if 48 ≤ c ∧ c ≤ 57 then (true, ((v <<< 4) + (c - 48)) % 256)
  else if 65 ≤ c ∧ c ≤ 70 then (true, ((v <<< 4) + (c - 65 + 10)) % 256)
  else if 97 ≤ c ∧ c ≤ 122 then (true, ((v <<< 4) + (c - 97 + 10)) % 256)
  else (false, v)

/-- `tohex` from the source: `(in < 10) ? in + '0' : in - 10 + 'A'`. -/
def tohex (v : Nat) : Nat :=
  if v < 10 then v + 48 else v - 10 + 65

/-- The two bytes `print_hex` writes for value `x` (an `unsigned char`):
high nibble then low nibble. -/
def hex2 (x : Nat) : List Nat :=
  [tohex (x / 16), tohex (x % 16)]

/-- The bytes written by `print_help` (the `?` command). -/
def helpText : List Nat :=
  (String.toList ("?       : print this help\r\nS<addr> : set I2C addr (hex)\r\nW<byte>*: write bytes (hex)\r\nP       : push (end of write)\r\nR<num>  : read bytes (hex)\r\n\r\n")).map Char.toNat

/-- Uppercase normalization from the source:
`if ((unsigned char)(l - 'a') <= 'z' - 'a') l -= 'a' - 'A';`.
For `l < 256` the condition holds exactly for `97 ≤ l ≤ 122`. -/
def upper (l : Nat) : Nat :=
  if (l + 159) % 256 ≤ 25 then (l + 256 - 32) % 256 else l

/-- The `parse_cmd` block of `loop()`: reset the nibble accumulator, then
interpret the (already uppercased) character as a command letter.
`S` = 83, `W` = 87, `R` = 82, `?` = 63. -/
def parse_cmd (m : M) (l : Nat) : M :=
  let m := { m with data := 0, digits := 0 }
  if l = 83 then { m with state := .ST_ADDR, addr := 0 }
  else if l = 87 then
    { m with state := .ST_CMDW, calls := m.calls ++ [.beginTransmission m.addr] }
  else if l = 82 then { m with state := .ST_CMDR }
  else if l = 63 then { m with out := m.out ++ helpText, to_print := 0 }
  else m

/-- The `while (TinyWireM.available())` drain loop of the `recv_now` block:
receive every pending byte (an `unsigned char`), record the call, and write
the two hex characters followed by a space for each.  The last received
byte is left in the `data` global, as in the source. -/
def drain (m : M) : M :=
  { m with
    pending := [],
    calls := m.calls ++ m.pending.map (fun b => BusCall.receive (b % 256)),
    out := m.out ++ m.pending.flatMap (fun b => hex2 (b % 256) ++ [32]),
    data := m.pending.foldl (fun _ b => b % 256) m.data }

/-- The `recv_now` block up to (but excluding) its `goto parse_cmd`:
drain the bus, terminate the line with CR LF, disarm the keep-alive
filler, and return to `ST_CMD`. -/
def recvBody (m : M) : M :=
  let m := drain m
  { m with out := m.out ++ [13, 10], to_print := 0, state := .ST_CMD }

/-- Labels of the basic blocks of `loop()`: the dispatch entry of each
state, the `parse_cmd` label and the `recv_now` label. -/
inductive Lbl
  | entry (s : St)
  | lparse
  | lrecv
  deriving DecidableEq, Repr

/-- The hex accumulation of the `ST_ADDR` case followed by the `S`/`P`
resynchronization (`addr = 0`). -/
def addrAcc (m : M) (l : Nat) : M :=
  let m1 := { m with addr := (read_hex m.addr l).2 }
  if l = 83 ∨ l = 80 then { m1 with addr := 0 } else m1

/-- The `ST_ADDR` case of the switch: accumulate/resync, then `break`
unless the character is `W`, `R` or `?`, in which case fall through to
`parse_cmd` in state `ST_CMD`. -/
def addrBlock (m : M) (l : Nat) : M × Option Lbl :=
  if l ≠ 87 ∧ l ≠ 82 ∧ l ≠ 63 then (addrAcc m l, none)
  else ({ addrAcc m l with state := .ST_CMD }, some .lparse)

/-- Nibble update at the head of the `ST_CMDW` and `ST_CMDR` cases:
`ret = read_hex(&data, l); digits += ret;`. -/
def nibble (m : M) (l : Nat) : M :=
  { m with data := (read_hex m.data l).2,
           digits := m.digits + (if (read_hex m.data l).1 then 1 else 0) }

/-- The flush of `ST_CMDW`: `if ((digits && !ret) || digits == 2)` send
the accumulated byte and reset the accumulator. -/
def wFlush (r : Bool) (m : M) : M :=
  if (m.digits ≠ 0 ∧ r = false) ∨ m.digits = 2 then
    { m with calls := m.calls ++ [BusCall.send m.data], data := 0, digits := 0 }
  else m

/-- Closing a write: `ret = TinyWireM.endTransmission();` and, on nonzero
status, `print_hex("W!", ret, "\n"); to_print = 0;`. -/
def wErr (B : BusBehavior) (m : M) : M :=
  let s := B.endStatus % 256
  let m3 := { m with calls := m.calls ++ [BusCall.endTransmission] }
  if s ≠ 0 then
    { m3 with out := m3.out ++ [87, 33] ++ hex2 s ++ [10], to_print := 0 }
  else m3

/-- The `ST_CMDW` case of the switch. -/
def cmdwBlock (B : BusBehavior) (m : M) (l : Nat) : M × Option Lbl :=
  let r := (read_hex m.data l).1
  if r = false ∧ l ≠ 32 ∧ l ≠ 87 then
    ({ wErr B (wFlush r (nibble m l)) with state := .ST_CMD }, some .lparse)
  else (wFlush r (nibble m l), none)

/-- Issuing a read: `ret = TinyWireM.requestFrom(addr, data);` and, on
nonzero status, `print_hex("R!", ret, "\n"); to_print = 0;`.  The bytes
the collaborator delivers synchronously join the receive buffer. -/
def rReq (B : BusBehavior) (m : M) : M :=
  let s := B.reqStatus m.addr m.data % 256
  let m2 := { m with calls := m.calls ++ [BusCall.requestFrom m.addr m.data],
                     pending := m.pending ++ B.reqBytes m.addr m.data }
  if s ≠ 0 then
    { m2 with out := m2.out ++ [82, 33] ++ hex2 s ++ [10], to_print := 0 }
  else m2

/-- The `ST_CMDR` case of the switch. -/
def cmdrBlock (B : BusBehavior) (m : M) (l : Nat) : M × Option Lbl :=
  let r := (read_hex m.data l).1
  if r = false ∧ (nibble m l).digits ≠ 0 then
    ({ rReq B (nibble m l) with data := 0, digits := 0, state := .ST_RECV },
      some .lrecv)
  else if r = false ∧ l ≠ 32 ∧ l ≠ 10 then
    ({ nibble m l with state := .ST_CMD }, some .lparse)
  else (nibble m l, none)

/-- One basic block of `loop()` for the (uppercased) character `l`:
execute the straight-line body and return the updated machine together
with the goto target, if any (`none` models `break`). -/
def blockRun (B : BusBehavior) (l : Nat) (m : M) : Lbl → M × Option Lbl
  | .lparse => (parse_cmd m l, none)
  | .lrecv => (recvBody m, some .lparse)
  | .entry .ST_CMD => (parse_cmd m l, none)
  | .entry .ST_ADDR => addrBlock m l
  | .entry .ST_CMDW => cmdwBlock B m l
  | .entry .ST_CMDR => cmdrBlock B m l
  | .entry .ST_RECV => (m, some .lrecv)

/-- Fuel-bounded interpreter of the goto graph.  It also counts how many
times the character is re-dispatched against the `parse_cmd` block via a
jump (the source's "each command implicitly ends the previous one"). -/
def interp (B : BusBehavior) (l : Nat) : Nat → M → Lbl → Option (M × Nat)
  | 0, _, _ => none
  | fuel + 1, m, lab =>
    match blockRun B l m lab with
    | (m2, none) => some (m2, 0)
    | (m2, some lab2) =>
      match interp B l fuel m2 lab2 with
      | none => none
      | some (m3, k) => some (m3, k + (if lab2 = Lbl.lparse then 1 else 0))

/-- Processing one uppercased character: run the entry block of the
current state and chase its goto, as the source does.  A jump to
`recv_now` continues into `parse_cmd` (the tail of the `recv_now` block),
and `parse_cmd` never jumps, so the chase has depth at most two; the
fuelled interpreter `interp` makes this bound explicit (claim C9).  The
final catch-all arm is unreachable: blocks only jump to the two labels. -/
def dispatch (B : BusBehavior) (m : M) (l : Nat) : M :=
  match blockRun B l m (.entry m.state) with
  | (m2, none) => m2
  | (m2, some .lparse) => parse_cmd m2 l
  | (m2, some .lrecv) => parse_cmd (recvBody m2) l
  | (m2, some (.entry _)) => m2

/-- Processing one raw serial byte, as in `loop()` once a byte is
available: arm the keep-alive filler from the raw byte, uppercase it,
and dispatch. -/
def step (B : BusBehavior) (m : M) (c : Nat) : M :=
  let c := c % 256
  let m := { m with to_print := if c = 13 ∨ c = 10 then 13 else 32 }
  dispatch B m (upper c)

/-- Feeding a list of raw bytes, one per polling step with input
available. -/
def run (B : BusBehavior) (m : M) (cs : List Nat) : M :=
  cs.foldl (step B) m

/-- The power-on state of the globals: `state = ST_CMD`, all counters 0,
nothing pending, no output. -/
def init : M :=
  { state := .ST_CMD, addr := 0, data := 0, digits := 0, to_print := 0,
    pending := [], calls := [], out := [] }

/-- An all-quiet collaborator: all statuses 0, a `requestFrom addr n`
makes `n` zero bytes available (all-zero register bank). -/
def busZero : BusBehavior :=
  { endStatus := 0, reqStatus := fun _ _ => 0,
    reqBytes := fun _ n => List.replicate n 0 }

/-- A collaborator whose `requestFrom` succeeds (status 0) but delivers its
bytes only after the `Receiving` drain has already run: nothing is pending
when the `while (TinyWireM.available())` loop polls. -/
def busLate : BusBehavior :=
  { endStatus := 0, reqStatus := fun _ _ => 0, reqBytes := fun _ _ => [] }

/-- A collaborator that delivers exactly the list `bs` synchronously with
the `requestFrom` call, all statuses 0. -/
def busSync (bs : List Nat) : BusBehavior :=
  { endStatus := 0, reqStatus := fun _ _ => 0, reqBytes := fun _ _ => bs }

/-- A collaborator whose `endTransmission` always reports status 2. -/
def busErr2 : BusBehavior :=
  { endStatus := 2, reqStatus := fun _ _ => 0, reqBytes := fun _ _ => [] }

/-- A collaborator whose `requestFrom` always reports status 3. -/
def busReqErr : BusBehavior :=
  { endStatus := 0, reqStatus := fun _ _ => 3, reqBytes := fun _ _ => [] }

/-- Recognizer for `send` calls in the bus trace. -/
def isSend : BusCall → Bool
  | .send _ => true
  | _ => false

/-- The resting-state invariant of the nibble accumulator: between two
input characters the digit count is at most 1 in `ST_CMDW` and 0 in the
states that do not accumulate (`ST_CMDR` is deliberately unconstrained:
see claim C7). -/
abbrev DigitsInv (m : M) : Prop :=
  (m.state = St.ST_CMDW → m.digits ≤ 1) ∧
  ((m.state = St.ST_CMD ∨ m.state = St.ST_ADDR ∨ m.state = St.ST_RECV) →
    m.digits = 0)

/-! ### Field lemmas for the blocks -/

theorem parse_cmd_addr (m : M) (l : Nat) (h : l ≠ 83) :
    (parse_cmd m l).addr = m.addr := by
  simp only [parse_cmd]
  rw [if_neg h]
  split
  · rfl
  · split
    · rfl
    · split <;> rfl

theorem parse_cmd_data (m : M) (l : Nat) : (parse_cmd m l).data = 0 := by
  simp only [parse_cmd]
  split
  · rfl
  · split
    · rfl
    · split
      · rfl
      · split <;> rfl

theorem parse_cmd_digits (m : M) (l : Nat) : (parse_cmd m l).digits = 0 := by
  simp only [parse_cmd]
  split
  · rfl
  · split
    · rfl
    · split
      · rfl
      · split <;> rfl

theorem parse_cmd_pending (m : M) (l : Nat) :
    (parse_cmd m l).pending = m.pending := by
  simp only [parse_cmd]
  split
  · rfl
  · split
    · rfl
    · split
      · rfl
      · split <;> rfl

theorem parse_cmd_calls (m : M) (l : Nat) :
    (parse_cmd m l).calls =
      if l = 87 then m.calls ++ [BusCall.beginTransmission m.addr]
      else m.calls := by
  simp only [parse_cmd]
  split_ifs <;> simp_all [parse_cmd]

theorem parse_cmd_out (m : M) (l : Nat) :
    (parse_cmd m l).out = if l = 63 then m.out ++ helpText else m.out := by
  simp only [parse_cmd]
  split_ifs <;> simp_all

theorem parse_cmd_to_print (m : M) (l : Nat) :
    (parse_cmd m l).to_print = if l = 63 then 0 else m.to_print := by
  simp only [parse_cmd]
  split_ifs <;> simp_all

theorem nibble_fields (m : M) (l : Nat) :
    (nibble m l).addr = m.addr ∧ (nibble m l).state = m.state ∧
    (nibble m l).pending = m.pending ∧ (nibble m l).calls = m.calls ∧
    (nibble m l).out = m.out ∧ (nibble m l).to_print = m.to_print :=
  ⟨rfl, rfl, rfl, rfl, rfl, rfl⟩

theorem wFlush_fields (r : Bool) (m : M) :
    (wFlush r m).addr = m.addr ∧ (wFlush r m).state = m.state ∧
    (wFlush r m).pending = m.pending ∧ (wFlush r m).out = m.out ∧
    (wFlush r m).to_print = m.to_print := by
  simp only [wFlush]
  split <;> exact ⟨rfl, rfl, rfl, rfl, rfl⟩

theorem wErr_fields (B : BusBehavior) (m : M) :
    (wErr B m).addr = m.addr ∧ (wErr B m).state = m.state ∧
    (wErr B m).pending = m.pending ∧ (wErr B m).data = m.data ∧
    (wErr B m).digits = m.digits := by
  simp only [wErr]
  split <;> exact ⟨rfl, rfl, rfl, rfl, rfl⟩

theorem wErr_calls (B : BusBehavior) (m : M) :
    (wErr B m).calls = m.calls ++ [BusCall.endTransmission] := by
  simp only [wErr]
  split <;> rfl

theorem rReq_fields (B : BusBehavior) (m : M) :
    (rReq B m).addr = m.addr ∧ (rReq B m).state = m.state ∧
    (rReq B m).data = m.data ∧ (rReq B m).digits = m.digits := by
  simp only [rReq]
  split <;> exact ⟨rfl, rfl, rfl, rfl⟩

theorem rReq_calls (B : BusBehavior) (m : M) :
    (rReq B m).calls = m.calls ++ [BusCall.requestFrom m.addr m.data] := by
  simp only [rReq]
  split <;> rfl

theorem rReq_pending (B : BusBehavior) (m : M) :
    (rReq B m).pending = m.pending ++ B.reqBytes m.addr m.data := by
  simp only [rReq]
  split <;> rfl

theorem addrAcc_fields (m : M) (l : Nat) :
    (addrAcc m l).state = m.state ∧ (addrAcc m l).data = m.data ∧
    (addrAcc m l).digits = m.digits ∧ (addrAcc m l).pending = m.pending ∧
    (addrAcc m l).calls = m.calls ∧ (addrAcc m l).out = m.out ∧
    (addrAcc m l).to_print = m.to_print := by
  simp only [addrAcc]
  split <;> exact ⟨rfl, rfl, rfl, rfl, rfl, rfl, rfl⟩

theorem addrAcc_addr (m : M) (l : Nat) :
    (addrAcc m l).addr =
      if l = 83 ∨ l = 80 then 0 else (read_hex m.addr l).2 := by
  simp only [addrAcc]
  split <;> rfl

/-! ### Dispatch characterization, one lemma per entry state -/

theorem dispatch_cmd (B : BusBehavior) (m : M) (l : Nat)
    (h : m.state = St.ST_CMD) : dispatch B m l = parse_cmd m l := by
  simp only [dispatch, h, blockRun]

theorem dispatch_recvSt (B : BusBehavior) (m : M) (l : Nat)
    (h : m.state = St.ST_RECV) :
    dispatch B m l = parse_cmd (recvBody m) l := by
  simp only [dispatch, h, blockRun]

theorem dispatch_addrSt (B : BusBehavior) (m : M) (l : Nat)
    (h : m.state = St.ST_ADDR) :
    dispatch B m l =
      if l ≠ 87 ∧ l ≠ 82 ∧ l ≠ 63 then addrAcc m l
      else parse_cmd { addrAcc m l with state := St.ST_CMD } l := by
  simp only [dispatch, h, blockRun, addrBlock]
  split_ifs <;> rfl

theorem dispatch_cmdw (B : BusBehavior) (m : M) (l : Nat)
    (h : m.state = St.ST_CMDW) :
    dispatch B m l =
      if (read_hex m.data l).1 = false ∧ l ≠ 32 ∧ l ≠ 87 then
        parse_cmd
          { wErr B (wFlush (read_hex m.data l).1 (nibble m l)) with
              state := St.ST_CMD } l
      else wFlush (read_hex m.data l).1 (nibble m l) := by
  simp only [dispatch, h, blockRun, cmdwBlock]
  split_ifs <;> rfl

theorem dispatch_cmdr (B : BusBehavior) (m : M) (l : Nat)
    (h : m.state = St.ST_CMDR) :
    dispatch B m l =
      if (read_hex m.data l).1 = false ∧ (nibble m l).digits ≠ 0 then
        parse_cmd
          (recvBody
            { rReq B (nibble m l) with
                data := 0, digits := 0, state := St.ST_RECV }) l
      else if (read_hex m.data l).1 = false ∧ l ≠ 32 ∧ l ≠ 10 then
        parse_cmd { nibble m l with state := St.ST_CMD } l
      else nibble m l := by
  simp only [dispatch, h, blockRun, cmdrBlock]
  split_ifs <;> rfl

/-! ### More field lemmas -/

theorem parse_cmd_addr_eq (m : M) (l : Nat) :
    (parse_cmd m l).addr = if l = 83 then 0 else m.addr := by
  simp only [parse_cmd]
  split_ifs <;> simp_all

theorem read_hex_le (v c : Nat) (h : v ≤ 255) : (read_hex v c).2 ≤ 255 := by
  simp only [read_hex]
  split_ifs <;> simp <;> omega

theorem read_hex_false (v c : Nat) (h : (read_hex v c).1 = false) :
    (read_hex v c).2 = v := by
  simp only [read_hex] at h ⊢
  split_ifs at h ⊢
  simp_all

theorem nibble_digits (m : M) (l : Nat) :
    (nibble m l).digits =
      m.digits + (if (read_hex m.data l).1 then 1 else 0) := rfl

theorem nibble_data (m : M) (l : Nat) :
    (nibble m l).data = (read_hex m.data l).2 := rfl

theorem wFlush_digits (r : Bool) (m : M) :
    (wFlush r m).digits =
      if (m.digits ≠ 0 ∧ r = false) ∨ m.digits = 2 then 0 else m.digits := by
  simp only [wFlush]
  split_ifs <;> rfl

theorem wFlush_calls (r : Bool) (m : M) :
    (wFlush r m).calls =
      if (m.digits ≠ 0 ∧ r = false) ∨ m.digits = 2 then
        m.calls ++ [BusCall.send m.data]
      else m.calls := by
  simp only [wFlush]
  split_ifs <;> rfl

theorem wErr_out (B : BusBehavior) (m : M) :
    (wErr B m).out =
      if B.endStatus % 256 ≠ 0 then
        m.out ++ [87, 33] ++ hex2 (B.endStatus % 256) ++ [10]
      else m.out := by
  simp only [wErr]
  split_ifs <;> rfl

theorem wErr_to_print (B : BusBehavior) (m : M) :
    (wErr B m).to_print =
      if B.endStatus % 256 ≠ 0 then 0 else m.to_print := by
  simp only [wErr]
  split_ifs <;> rfl

theorem rReq_out (B : BusBehavior) (m : M) :
    (rReq B m).out =
      if B.reqStatus m.addr m.data % 256 ≠ 0 then
        m.out ++ [82, 33] ++ hex2 (B.reqStatus m.addr m.data % 256) ++ [10]
      else m.out := by
  simp only [rReq]
  split_ifs <;> rfl

theorem rReq_to_print (B : BusBehavior) (m : M) :
    (rReq B m).to_print =
      if B.reqStatus m.addr m.data % 256 ≠ 0 then 0 else m.to_print := by
  simp only [rReq]
  split_ifs <;> rfl

theorem recvBody_out (x : M) :
    (recvBody x).out =
      (x.out ++ x.pending.flatMap fun b => hex2 (b % 256) ++ [32]) ++ [13, 10] :=
  rfl

theorem recvBody_calls (x : M) :
    (recvBody x).calls =
      x.calls ++ x.pending.map fun b => BusCall.receive (b % 256) :=
  rfl

/-! ### The fuelled goto interpreter -/

theorem interp_succ (B : BusBehavior) (l f : Nat) (m : M) (lab : Lbl) :
    interp B l (f + 1) m lab =
      match blockRun B l m lab with
      | (m2, none) => some (m2, 0)
      | (m2, some lab2) =>
        match interp B l f m2 lab2 with
        | none => none
        | some (m3, k) => some (m3, k + (if lab2 = Lbl.lparse then 1 else 0)) :=
  rfl

theorem interp3_of_break (B : BusBehavior) (l : Nat) (m : M) (lab : Lbl)
    (m2 : M) (hb : blockRun B l m lab = (m2, none)) :
    interp B l 3 m lab = some (m2, 0) := by
  show interp B l (2 + 1) m lab = some (m2, 0)
  rw [interp_succ, hb]

theorem interp3_of_parse (B : BusBehavior) (l : Nat) (m : M) (lab : Lbl)
    (m2 : M) (hb : blockRun B l m lab = (m2, some .lparse)) :
    interp B l 3 m lab = some (parse_cmd m2 l, 1) := by
  show interp B l (2 + 1) m lab = some (parse_cmd m2 l, 1)
  rw [interp_succ, hb]
  rfl

theorem interp3_of_recv (B : BusBehavior) (l : Nat) (m : M) (lab : Lbl)
    (m2 : M) (hb : blockRun B l m lab = (m2, some .lrecv)) :
    interp B l 3 m lab = some (parse_cmd (recvBody m2) l, 1) := by
  show interp B l (2 + 1) m lab = some (parse_cmd (recvBody m2) l, 1)
  rw [interp_succ, hb]
  rfl

theorem blockRun_no_entry (B : BusBehavior) (l : Nat) (m : M) (lab : Lbl)
    (s : St) : (blockRun B l m lab).2 ≠ some (Lbl.entry s) := by
  rcases lab with ⟨st⟩ | _ | _
  · cases st
    · simp [blockRun]
    · simp only [blockRun, addrBlock]
      split_ifs <;> simp
    · simp only [blockRun, cmdwBlock]
      split_ifs <;> simp
    · simp only [blockRun, cmdrBlock]
      split_ifs <;> simp
    · simp [blockRun]
  · simp [blockRun]
  · simp [blockRun]

/-! ### Counting hex pairs in a drained line -/

theorem tohex_ne_space (v : Nat) : tohex v ≠ 32 := by
  simp only [tohex]
  split <;> omega

theorem count_space_hex2 (x : Nat) : ((hex2 x).count 32) = 0 := by
  have h1 : (32 : Nat) ≠ tohex (x / 16) := Ne.symm (tohex_ne_space _)
  have h2 : (32 : Nat) ≠ tohex (x % 16) := Ne.symm (tohex_ne_space _)
  simp [hex2, List.count_cons, h1, h2]

theorem count_space_hexline (bs : List Nat) :
    ((bs.flatMap fun b => hex2 (b % 256) ++ [32]).count 32) = bs.length := by
  induction bs with
  | nil => rfl
  | cons b rest ih =>
    simp only [List.flatMap_cons, List.count_append, count_space_hex2, ih,
      List.length_cons, List.count_cons, List.count_nil]
    simp
    omega

/-! ### Claim theorems -/

/-- C1, counterexample.  The claim asserts that `"W3AW"` closes the write
transaction (one `send(0x3A)` then one `endTransmission()`) before acting
on the terminating `W`.  In the code a `W` received in `ST_CMDW` while no
byte is half-accumulated is ignored as a delimiter (`!ret && l != ' ' &&
l != 'W'` is false), so the run performs `beginTransmission(0)` and
`send(0x3A)` but never `endTransmission()`, and stays in `ST_CMDW`. -/
theorem C1_counterexample :
    (run busZero init [87, 51, 65, 87]).calls =
      [.beginTransmission 0, .send 58] ∧
    BusCall.endTransmission ∉ (run busZero init [87, 51, 65, 87]).calls ∧
    (run busZero init [87, 51, 65, 87]).state = St.ST_CMDW := by decide

/-- C1, amended: for `"W3Ap"` and `"W3AR1"` the transaction is closed by
exactly one `send(0x3A)` followed by one `endTransmission()` before the
parser acts on `P` / `R` (after `"W3A"` alone the calls are only `begin`
and `send`; the terminator step adds the `endTransmission` and only then
dispatches the terminator, leaving `ST_CMD` resp. `ST_CMDR` with the `1`
accumulated).  For `"W3AW"` the terminating `W` is ignored as a delimiter:
`send(0x3A)` happens but the transaction stays open in `ST_CMDW`. -/
theorem C1_amended :
    ((run busZero init [87, 51, 65]).calls =
      [.beginTransmission 0, .send 58]) ∧
    ((run busZero init [87, 51, 65, 112]).calls =
      [.beginTransmission 0, .send 58, .endTransmission] ∧
     (run busZero init [87, 51, 65, 112]).state = St.ST_CMD) ∧
    ((run busZero init [87, 51, 65, 82, 49]).calls =
      [.beginTransmission 0, .send 58, .endTransmission] ∧
     (run busZero init [87, 51, 65, 82, 49]).state = St.ST_CMDR ∧
     (run busZero init [87, 51, 65, 82, 49]).data = 1 ∧
     (run busZero init [87, 51, 65, 82, 49]).digits = 1) ∧
    ((run busZero init [87, 51, 65, 87]).calls =
      [.beginTransmission 0, .send 58] ∧
     (run busZero init [87, 51, 65, 87]).state = St.ST_CMDW) := by decide

/-- C2, counterexample.  The claim asserts that `"S68W0 0P"` then
`"S68W0R7"` (fed to an all-zero responder) produce the read output
`"00 00 00 00 00 00 00\r\n"`.  In the code the read request only fires on
the first non-hex character after the count digits; the given input ends
right after the `7`, so the machine rests in `ST_CMDR`, `requestFrom` is
never called and the whole output is empty. -/
theorem C2_counterexample :
    (run busZero init
      [83, 54, 56, 87, 48, 32, 48, 80, 83, 54, 56, 87, 48, 82, 55]).out
      = [] ∧
    (run busZero init
      [83, 54, 56, 87, 48, 32, 48, 80, 83, 54, 56, 87, 48, 82, 55]).out
      ≠ [48, 48, 32, 48, 48, 32, 48, 48, 32, 48, 48, 32, 48, 48, 32,
         48, 48, 32, 48, 48, 13, 10] ∧
    (run busZero init
      [83, 54, 56, 87, 48, 32, 48, 80, 83, 54, 56, 87, 48, 82, 55]).state
      = St.ST_CMDR ∧
    (run busZero init
      [83, 54, 56, 87, 48, 32, 48, 80, 83, 54, 56, 87, 48, 82, 55]).calls
      = [.beginTransmission 104, .send 0, .send 0, .endTransmission,
         .beginTransmission 104, .send 0, .endTransmission] := by decide

/-- C2, amended: with a line terminator after `"S68W0R7"` the read fires,
and the output for the read is exactly seven `"00"` pairs, each followed
by one space (so a trailing space before the terminator, 23 bytes total —
matching the repository's `readbytes=23`, `3N+2` documentation), ended by
CR LF. -/
theorem C2_amended :
    (run busZero init
      [83, 54, 56, 87, 48, 32, 48, 80, 83, 54, 56, 87, 48, 82, 55, 10]).out
      = [48, 48, 32, 48, 48, 32, 48, 48, 32, 48, 48, 32, 48, 48, 32,
         48, 48, 32, 48, 48, 32, 13, 10] ∧
    (run busZero init
      [83, 54, 56, 87, 48, 32, 48, 80, 83, 54, 56, 87, 48, 82, 55, 10]).calls
      = [.beginTransmission 104, .send 0, .send 0, .endTransmission,
         .beginTransmission 104, .send 0, .endTransmission,
         .requestFrom 104 7, .receive 0, .receive 0, .receive 0,
         .receive 0, .receive 0, .receive 0, .receive 0] := by decide

/-- C3, counterexample.  The claim asserts exactly 7 hex pairs for every
collaborator behavior, including one that makes the bytes available only
on later polling steps.  `busLate` succeeds (`requestFrom` status 0) but
has nothing pending when the single `while (TinyWireM.available())` drain
runs; `ST_RECV` does not persist across steps, so the output line for
`"R7\n"` contains zero pairs. -/
theorem C3_counterexample :
    busLate.reqStatus 0 7 = 0 ∧
    (run busLate init [82, 55, 10]).calls = [.requestFrom 0 7] ∧
    (run busLate init [82, 55, 10]).out = [13, 10] ∧
    ((run busLate init [82, 55, 10]).out).count 32 = 0 ∧
    (run busLate init [82, 55, 10]).state = St.ST_CMD := by decide

/-- C4, counterexample.  The claim asserts that `endTransmission()`
returning 2 yields output exactly `"W!02\r\n"`.  The code prints
`print_hex("W!", ret, "\n")`: the suffix is a bare LF, so the output is
`"W!02\n"` (5 bytes), not `"W!02\r\n"`. -/
theorem C4_counterexample :
    (run busErr2 init [87, 80]).out = [87, 33, 48, 50, 10] ∧
    (run busErr2 init [87, 80]).out ≠ [87, 33, 48, 50, 13, 10] := by decide

/-- C5: evaluation of the hex decoder at the disputed inputs.  The claim
(and the hex-only protocol intent) say `'g'` must be rejected with the
accumulator untouched, but `read_hex` accepts the whole range
`'a'`–`'z'`: `'g'` (103) decodes to 16 and is shifted into the
accumulator (`7` becomes `7*16 + 16 = 128`).  Uppercase `'G'` (71) and
all genuinely-hex characters behave as specified. -/
theorem C5_code_eval :
    read_hex 0 103 = (true, 16) ∧ read_hex 7 103 = (true, 128) ∧
    read_hex 0 122 = (true, 35) ∧ read_hex 0 71 = (false, 0) ∧
    read_hex 0 97 = (true, 10) ∧ read_hex 0 102 = (true, 15) ∧
    read_hex 0 48 = (true, 0) ∧ read_hex 0 57 = (true, 9) ∧
    read_hex 0 65 = (true, 10) ∧ read_hex 0 70 = (true, 15) ∧
    read_hex 5 47 = (false, 5) ∧ read_hex 5 58 = (false, 5) := by decide

/-- C6, counterexample.  The claim asserts `BusAddress` is always in
0–127.  The address is an 8-bit accumulator with no 7-bit mask: `"SFF"`
leaves `addr = 255`. -/
theorem C6_counterexample :
    (run busZero init [83, 70, 70]).addr = 255 ∧
    ¬ (run busZero init [83, 70, 70]).addr ≤ 127 := by decide

/-- C7, counterexample.  The claim asserts the digit count is always in
{0,1,2}.  `ST_CMDR` never flushes on the second digit, so `"R777"` rests
in `ST_CMDR` with `digits = 3`. -/
theorem C7_counterexample :
    (run busZero init [82, 55, 55, 55]).digits = 3 ∧
    (run busZero init [82, 55, 55, 55]).state = St.ST_CMDR ∧
    ¬ (run busZero init [82, 55, 55, 55]).digits ≤ 2 := by decide

/-- C8: `"S68W0R7"`, `"S 68 W 0 R 7"` and `"s68w0r7"`, each fed from the
initial state, produce the identical bus-call sequence and identical
output text — both under the all-quiet collaborator and under one whose
`endTransmission` reports status 2 (so the error line, when any, is also
identical).  The common call sequence is `beginTransmission(0x68)`,
`send(0x00)`, `endTransmission()`. -/
theorem C8_thm :
    ((run busZero init [83, 54, 56, 87, 48, 82, 55]).calls =
       (run busZero init [83, 32, 54, 56, 32, 87, 32, 48, 32, 82, 32, 55]).calls ∧
     (run busZero init [83, 32, 54, 56, 32, 87, 32, 48, 32, 82, 32, 55]).calls =
       (run busZero init [115, 54, 56, 119, 48, 114, 55]).calls ∧
     (run busZero init [83, 54, 56, 87, 48, 82, 55]).out =
       (run busZero init [83, 32, 54, 56, 32, 87, 32, 48, 32, 82, 32, 55]).out ∧
     (run busZero init [83, 32, 54, 56, 32, 87, 32, 48, 32, 82, 32, 55]).out =
       (run busZero init [115, 54, 56, 119, 48, 114, 55]).out ∧
     (run busZero init [83, 54, 56, 87, 48, 82, 55]).calls =
       [.beginTransmission 104, .send 0, .endTransmission]) ∧
    ((run busErr2 init [83, 54, 56, 87, 48, 82, 55]).calls =
       (run busErr2 init [83, 32, 54, 56, 32, 87, 32, 48, 32, 82, 32, 55]).calls ∧
     (run busErr2 init [83, 32, 54, 56, 32, 87, 32, 48, 32, 82, 32, 55]).calls =
       (run busErr2 init [115, 54, 56, 119, 48, 114, 55]).calls ∧
     (run busErr2 init [83, 54, 56, 87, 48, 82, 55]).out =
       (run busErr2 init [83, 32, 54, 56, 32, 87, 32, 48, 32, 82, 32, 55]).out ∧
     (run busErr2 init [83, 32, 54, 56, 32, 87, 32, 48, 32, 82, 32, 55]).out =
       (run busErr2 init [115, 54, 56, 119, 48, 114, 55]).out) := by decide

/-- C3, amended: provided the collaborator makes the requested bytes
available synchronously with `requestFrom` (as TinyWireM's buffered
`requestFrom` does), a 7-byte read prints exactly 7 hex pairs — one space
per pair, and no other spaces — whatever the byte values are. -/
theorem C3_amended (bs : List Nat) (h : bs.length = 7) :
    (run (busSync bs) init [82, 55, 10]).out =
      (bs.flatMap fun b => hex2 (b % 256) ++ [32]) ++ [13, 10] ∧
    ((run (busSync bs) init [82, 55, 10]).out).count 32 = 7 := by
  have hout : (run (busSync bs) init [82, 55, 10]).out =
      (bs.flatMap fun b => hex2 (b % 256) ++ [32]) ++ [13, 10] := rfl
  refine ⟨hout, ?_⟩
  rw [hout, List.count_append, count_space_hexline, h]
  rfl

/-- Witness for C3: the all-zero seven-byte bank. -/
theorem C3_witness :
    (run (busSync [0, 0, 0, 0, 0, 0, 0]) init [82, 55, 10]).out =
      (([0, 0, 0, 0, 0, 0, 0] : List Nat).flatMap
        fun b => hex2 (b % 256) ++ [32]) ++ [13, 10] ∧
    ((run (busSync [0, 0, 0, 0, 0, 0, 0]) init [82, 55, 10]).out).count 32 = 7 :=
  C3_amended [0, 0, 0, 0, 0, 0, 0] rfl

/-- C4, amended.  On nonzero status from `endTransmission` (resp.
`requestFrom`) the step's output starts with `"W!"` (resp. `"R!"`)
followed by the two hex digits of the status and a bare LF (not CR LF),
the keep-alive filler is disarmed for the step, and the parser continues:
concretely, with `endTransmission` reporting 2, `"WP"` outputs exactly
`"W!02\n"`, returns to `ST_CMD`, and a following `"S42"` sets the address
normally. -/
theorem C4_amended :
    (∀ (B : BusBehavior) (m : M) (l : Nat),
      m.state = St.ST_CMDW → (read_hex m.data l).1 = false →
      l ≠ 32 → l ≠ 87 → B.endStatus % 256 ≠ 0 →
      (∃ rest, (dispatch B m l).out =
          (m.out ++ [87, 33] ++ hex2 (B.endStatus % 256) ++ [10]) ++ rest) ∧
      (dispatch B m l).to_print = 0) ∧
    (∀ (B : BusBehavior) (m : M) (l : Nat),
      m.state = St.ST_CMDR → (read_hex m.data l).1 = false →
      m.digits ≠ 0 → B.reqStatus m.addr m.data % 256 ≠ 0 →
      (∃ rest, (dispatch B m l).out =
          (m.out ++ [82, 33] ++ hex2 (B.reqStatus m.addr m.data % 256) ++ [10])
            ++ rest) ∧
      (dispatch B m l).to_print = 0) ∧
    ((run busErr2 init [87, 80]).out = [87, 33, 48, 50, 10] ∧
     (run busErr2 init [87, 80]).state = St.ST_CMD ∧
     (run busErr2 init [87, 80]).to_print = 0 ∧
     (run busErr2 init [87, 80, 83, 52, 50]).addr = 66) := by
  refine ⟨?_, ?_, by decide⟩
  · intro B m l hs hr h32 h87 hnz
    rw [dispatch_cmdw B m l hs, if_pos ⟨hr, h32, h87⟩]
    have hWout :
        ({ wErr B (wFlush (read_hex m.data l).1 (nibble m l)) with
            state := St.ST_CMD } : M).out =
          m.out ++ [87, 33] ++ hex2 (B.endStatus % 256) ++ [10] := by
      show (wErr B (wFlush (read_hex m.data l).1 (nibble m l))).out = _
      rw [wErr_out, if_pos hnz, (wFlush_fields _ _).2.2.2.1,
        (nibble_fields _ _).2.2.2.2.1]
    constructor
    · refine ⟨if l = 63 then helpText else [], ?_⟩
      rw [parse_cmd_out, hWout]
      split_ifs <;> simp [List.append_assoc]
    · rw [parse_cmd_to_print]
      have hWtp :
          ({ wErr B (wFlush (read_hex m.data l).1 (nibble m l)) with
              state := St.ST_CMD } : M).to_print = 0 := by
        show (wErr B (wFlush (read_hex m.data l).1 (nibble m l))).to_print = 0
        rw [wErr_to_print, if_pos hnz]
      rw [hWtp]
      split_ifs <;> rfl
  · intro B m l hs hr hd hnz
    have hcond : (read_hex m.data l).1 = false ∧ (nibble m l).digits ≠ 0 := by
      refine ⟨hr, ?_⟩
      rw [nibble_digits, hr]
      simpa using hd
    rw [dispatch_cmdr B m l hs, if_pos hcond]
    have hreq : (rReq B (nibble m l)).out =
        m.out ++ [82, 33] ++ hex2 (B.reqStatus m.addr m.data % 256) ++ [10] := by
      have ha : (nibble m l).addr = m.addr := (nibble_fields m l).1
      have hdta : (nibble m l).data = m.data := by
        rw [nibble_data, read_hex_false _ _ hr]
      rw [rReq_out, ha, hdta, (nibble_fields m l).2.2.2.2.1, if_pos hnz]
    have hYout :
        ({ rReq B (nibble m l) with
            data := 0, digits := 0, state := St.ST_RECV } : M).out =
          (rReq B (nibble m l)).out := rfl
    have hYpend :
        ({ rReq B (nibble m l) with
            data := 0, digits := 0, state := St.ST_RECV } : M).pending =
          (rReq B (nibble m l)).pending := rfl
    constructor
    · refine ⟨((rReq B (nibble m l)).pending.flatMap
          fun b => hex2 (b % 256) ++ [32]) ++ [13, 10] ++
          (if l = 63 then helpText else []), ?_⟩
      rw [parse_cmd_out, recvBody_out, hYout, hYpend, hreq]
      split_ifs <;> simp [List.append_assoc]
    · rw [parse_cmd_to_print]
      have hYtp : (recvBody { rReq B (nibble m l) with
          data := 0, digits := 0, state := St.ST_RECV }).to_print = 0 := rfl
      rw [hYtp]
      split_ifs <;> rfl

/-- Witness for C4: a write closed by `P` under `endTransmission`
status 2, and a read count terminator under `requestFrom` status 3. -/
theorem C4_witness :
    ((∃ rest, (dispatch busErr2 { init with state := St.ST_CMDW } 80).out =
        (([] : List Nat) ++ [87, 33] ++ hex2 2 ++ [10]) ++ rest) ∧
     (dispatch busErr2 { init with state := St.ST_CMDW } 80).to_print = 0) ∧
    ((∃ rest,
        (dispatch busReqErr
          { init with state := St.ST_CMDR, digits := 1, data := 5 } 80).out =
        (([] : List Nat) ++ [82, 33] ++ hex2 3 ++ [10]) ++ rest) ∧
     (dispatch busReqErr
        { init with state := St.ST_CMDR, digits := 1, data := 5 } 80).to_print
       = 0) :=
  ⟨C4_amended.1 busErr2 { init with state := St.ST_CMDW } 80 rfl (by decide)
      (by decide) (by decide) (by decide),
   C4_amended.2.1 busReqErr
      { init with state := St.ST_CMDR, digits := 1, data := 5 } 80 rfl
      (by decide) (by decide) (by decide)⟩

/-! ### Address-preservation helpers (claim C6) -/

theorem dispatch_addr_le (B : BusBehavior) (m : M) (l : Nat)
    (h : m.addr ≤ 255) : (dispatch B m l).addr ≤ 255 := by
  cases hst : m.state
  case ST_CMD =>
    rw [dispatch_cmd B m l hst, parse_cmd_addr_eq]
    split <;> omega
  case ST_ADDR =>
    rw [dispatch_addrSt B m l hst]
    have ha : (addrAcc m l).addr ≤ 255 := by
      rw [addrAcc_addr]
      split
      · omega
      · exact read_hex_le m.addr l h
    split
    · exact ha
    · rw [parse_cmd_addr_eq]
      split
      · omega
      · exact ha
  case ST_CMDW =>
    rw [dispatch_cmdw B m l hst]
    have hw : (wFlush (read_hex m.data l).1 (nibble m l)).addr = m.addr := by
      rw [(wFlush_fields _ _).1, (nibble_fields _ _).1]
    split
    · rw [parse_cmd_addr_eq]
      split
      · omega
      · show (wErr B (wFlush (read_hex m.data l).1 (nibble m l))).addr ≤ 255
        rw [(wErr_fields _ _).1, hw]
        exact h
    · rw [hw]
      exact h
  case ST_CMDR =>
    rw [dispatch_cmdr B m l hst]
    have hn : (nibble m l).addr = m.addr := (nibble_fields m l).1
    split
    · rw [parse_cmd_addr_eq]
      split
      · omega
      · show (rReq B (nibble m l)).addr ≤ 255
        rw [(rReq_fields _ _).1, hn]
        exact h
    · split
      · rw [parse_cmd_addr_eq]
        split
        · omega
        · show (nibble m l).addr ≤ 255
          rw [hn]
          exact h
      · rw [hn]
        exact h
  case ST_RECV =>
    rw [dispatch_recvSt B m l hst, parse_cmd_addr_eq]
    split
    · omega
    · exact h

theorem dispatch_addr_eq (B : BusBehavior) (m : M) (l : Nat)
    (hs : m.state ≠ St.ST_ADDR) (hl : l ≠ 83) :
    (dispatch B m l).addr = m.addr := by
  cases hst : m.state
  case ST_ADDR => exact absurd hst hs
  case ST_CMD => rw [dispatch_cmd B m l hst, parse_cmd_addr _ _ hl]
  case ST_CMDW =>
    rw [dispatch_cmdw B m l hst]
    have hw : (wFlush (read_hex m.data l).1 (nibble m l)).addr = m.addr := by
      rw [(wFlush_fields _ _).1, (nibble_fields _ _).1]
    split
    · rw [parse_cmd_addr _ _ hl]
      show (wErr B (wFlush (read_hex m.data l).1 (nibble m l))).addr = m.addr
      rw [(wErr_fields _ _).1, hw]
    · exact hw
  case ST_CMDR =>
    rw [dispatch_cmdr B m l hst]
    have hn : (nibble m l).addr = m.addr := (nibble_fields m l).1
    split
    · rw [parse_cmd_addr _ _ hl]
      show (rReq B (nibble m l)).addr = m.addr
      rw [(rReq_fields _ _).1, hn]
    · split
      · rw [parse_cmd_addr _ _ hl]
        exact hn
      · exact hn
  case ST_RECV =>
    rw [dispatch_recvSt B m l hst, parse_cmd_addr _ _ hl]
    exact rfl

/-- C6, amended.  The bus address is an 8-bit value (0–255, not 0–127):
any step keeps it within 0–255, and a step whose entry state is not
`ST_ADDR` and whose normalized character is not `S` leaves it untouched —
so it is set only by an `S` command (which starts with `addr = 0`) or by
the `Address` accumulation/resync, and is retained across `W` and `R`
commands. -/
theorem C6_amended :
    (∀ (B : BusBehavior) (m : M) (c : Nat),
      m.addr ≤ 255 → (step B m c).addr ≤ 255) ∧
    (∀ (B : BusBehavior) (m : M) (c : Nat),
      m.state ≠ St.ST_ADDR → upper (c % 256) ≠ 83 →
      (step B m c).addr = m.addr) := by
  constructor
  · intro B m c h
    simp only [step]
    exact dispatch_addr_le B _ _ h
  · intro B m c hs hl
    simp only [step]
    exact dispatch_addr_eq B _ _ hs hl

/-- Witness for C6: a `W` character from the power-on state. -/
theorem C6_witness :
    (step busZero init 87).addr ≤ 255 ∧ (step busZero init 87).addr = init.addr :=
  ⟨C6_amended.1 busZero init 87 (by decide),
   C6_amended.2 busZero init 87 (by decide) (by decide)⟩

/-! ### Digit-count helpers (claim C7) -/

theorem DigitsInv_parse (x : M) (l : Nat) : DigitsInv (parse_cmd x l) :=
  ⟨fun _ => by rw [parse_cmd_digits]; omega,
   fun _ => parse_cmd_digits x l⟩

theorem dispatch_DigitsInv (B : BusBehavior) (m : M) (l : Nat)
    (h : DigitsInv m) : DigitsInv (dispatch B m l) := by
  cases hst : m.state
  case ST_CMD =>
    rw [dispatch_cmd B m l hst]
    exact DigitsInv_parse m l
  case ST_RECV =>
    rw [dispatch_recvSt B m l hst]
    exact DigitsInv_parse _ l
  case ST_ADDR =>
    rw [dispatch_addrSt B m l hst]
    split
    · constructor
      · intro hx
        rw [(addrAcc_fields m l).1, hst] at hx
        simp at hx
      · intro _
        rw [(addrAcc_fields m l).2.2.1]
        exact h.2 (Or.inr (Or.inl hst))
    · exact DigitsInv_parse _ l
  case ST_CMDW =>
    rw [dispatch_cmdw B m l hst]
    have hd : m.digits ≤ 1 := h.1 hst
    split
    · exact DigitsInv_parse _ l
    · constructor
      · intro _
        rw [wFlush_digits]
        split
        · omega
        · rename_i hc
          rw [nibble_digits] at hc ⊢
          cases hr : (read_hex m.data l).1 <;> rw [hr] at hc <;>
            simp at hc ⊢ <;> omega
      · intro hx
        rw [(wFlush_fields _ _).2.1, (nibble_fields _ _).2.1, hst] at hx
        rcases hx with hx | hx | hx <;> simp at hx
  case ST_CMDR =>
    rw [dispatch_cmdr B m l hst]
    split
    · exact DigitsInv_parse _ l
    · split
      · exact DigitsInv_parse _ l
      · constructor
        · intro hx
          rw [(nibble_fields _ _).2.1, hst] at hx
          simp at hx
        · intro hx
          rw [(nibble_fields _ _).2.1, hst] at hx
          rcases hx with hx | hx | hx <;> simp at hx

theorem countP_send_single (d : Nat) :
    List.countP isSend [BusCall.send d] = 1 := by
  simp [List.countP_cons, isSend]

theorem dispatch_send_count (B : BusBehavior) (m : M) (l : Nat)
    (hs : m.state = St.ST_CMDW) (hd : m.digits ≤ 1) :
    ((dispatch B m l).calls.countP isSend)
      = m.calls.countP isSend + (if m.digits = 1 then 1 else 0) := by
  rw [dispatch_cmdw B m l hs]
  have key : ((wFlush (read_hex m.data l).1 (nibble m l)).calls.countP isSend)
      = m.calls.countP isSend + (if m.digits = 1 then 1 else 0) := by
    rw [wFlush_calls, nibble_digits, (nibble_fields m l).2.2.2.1]
    cases hr : (read_hex m.data l).1
    · rw [if_neg Bool.false_ne_true]
      simp only [Nat.add_zero, eq_self_iff_true, and_true]
      split_ifs with hc hone
      · rw [List.countP_append, countP_send_single]
      · exfalso
        omega
      · exfalso
        omega
      · simp
    · rw [if_pos rfl]
      simp only [eq_false (by decide : ¬((true : Bool) = false)), and_false,
        false_or]
      split_ifs with hc hone
      · rw [List.countP_append, countP_send_single]
      · exfalso
        omega
      · exfalso
        omega
      · simp
  split
  · rename_i hcond
    rw [parse_cmd_calls, if_neg hcond.2.2]
    show ((wErr B (wFlush (read_hex m.data l).1 (nibble m l))).calls.countP
        isSend) = _
    rw [wErr_calls, List.countP_append, key]
    simp [List.countP_cons, isSend]
  · exact key

/-- C7, amended.  The digit-count invariant holds for the write
accumulator: between steps `digits ≤ 1` in `ST_CMDW` and `0` in the
non-accumulating states (in `ST_CMDR` the count is unbounded — see the
counterexample `"R777"`), a `ST_CMDW` step emits exactly one `send` iff
one digit is pending (two accepted digits, or early non-hex termination
after one digit), and `"W5P"` performs exactly `beginTransmission`,
`send(0x05)`, `endTransmission`. -/
theorem C7_amended :
    (∀ (B : BusBehavior) (m : M) (c : Nat),
      DigitsInv m → DigitsInv (step B m c)) ∧
    (∀ (B : BusBehavior) (m : M) (l : Nat),
      m.state = St.ST_CMDW → m.digits ≤ 1 →
      ((dispatch B m l).calls.countP isSend)
        = m.calls.countP isSend + (if m.digits = 1 then 1 else 0)) ∧
    ((run busZero init [87, 53, 80]).calls =
      [.beginTransmission 0, .send 5, .endTransmission]) := by
  refine ⟨?_, ?_, by decide⟩
  · intro B m c h
    simp only [step]
    exact dispatch_DigitsInv B _ _ h
  · intro B m l hs hd
    exact dispatch_send_count B m l hs hd

/-- Witness for C7: one step from power-on, and one pending digit flushed
by a `P`. -/
theorem C7_witness :
    DigitsInv (step busZero init 87) ∧
    ((dispatch busZero
        { init with state := St.ST_CMDW, digits := 1, data := 5 } 80).calls.countP
      isSend) = 1 :=
  ⟨C7_amended.1 busZero init 87 (by decide),
   C7_amended.2.1 busZero
     { init with state := St.ST_CMDW, digits := 1, data := 5 } 80 rfl
     (by decide)⟩

/-! ### End-transmission call-site helpers (claim C10) -/

theorem count_end_parse (x : M) (l : Nat) :
    ((parse_cmd x l).calls.count BusCall.endTransmission)
      = x.calls.count BusCall.endTransmission := by
  rw [parse_cmd_calls]
  split_ifs
  · rw [List.count_append]
    simp [List.count_cons]
  · rfl

theorem count_end_recvBody (x : M) :
    ((recvBody x).calls.count BusCall.endTransmission)
      = x.calls.count BusCall.endTransmission := by
  rw [recvBody_calls, List.count_append]
  have h0 : ((x.pending.map fun b => BusCall.receive (b % 256)).count
      BusCall.endTransmission) = 0 := by
    rw [List.count_eq_zero]
    simp
  omega

theorem dispatch_end_count (B : BusBehavior) (m : M) (l : Nat)
    (hs : m.state ≠ St.ST_CMDW) :
    ((dispatch B m l).calls.count BusCall.endTransmission)
      = m.calls.count BusCall.endTransmission := by
  cases hst : m.state
  case ST_CMDW => exact absurd hst hs
  case ST_CMD => rw [dispatch_cmd B m l hst, count_end_parse]
  case ST_ADDR =>
    rw [dispatch_addrSt B m l hst]
    split
    · rw [(addrAcc_fields m l).2.2.2.2.1]
    · rw [count_end_parse]
      show ((addrAcc m l).calls.count BusCall.endTransmission) = _
      rw [(addrAcc_fields m l).2.2.2.2.1]
  case ST_CMDR =>
    rw [dispatch_cmdr B m l hst]
    split
    · rw [count_end_parse, count_end_recvBody]
      show ((rReq B (nibble m l)).calls.count BusCall.endTransmission) = _
      rw [rReq_calls, List.count_append, (nibble_fields m l).2.2.2.1]
      simp [List.count_cons]
    · split
      · rw [count_end_parse]
        show ((nibble m l).calls.count BusCall.endTransmission) = _
        rw [(nibble_fields m l).2.2.2.1]
      · rw [(nibble_fields m l).2.2.2.1]
  case ST_RECV =>
    rw [dispatch_recvSt B m l hst, count_end_parse, count_end_recvBody]

/-- C10.  `endTransmission` is called only by the `ST_CMDW` case: any step
entered in another state leaves the number of `endTransmission` calls in
the trace unchanged.  And a `P` (0x50) received at rest in the `Command`
state (where `data = digits = 0` always holds at rest) is silently
ignored: no bus call, no output, no change of parser state, address or
accumulator — only the keep-alive filler is re-armed as for every
character. -/
theorem C10_thm :
    (∀ (B : BusBehavior) (m : M) (c : Nat), m.state ≠ St.ST_CMDW →
      ((step B m c).calls.count BusCall.endTransmission)
        = m.calls.count BusCall.endTransmission) ∧
    (∀ (B : BusBehavior) (m : M), m.state = St.ST_CMD → m.data = 0 →
      m.digits = 0 → step B m 80 = { m with to_print := 32 }) := by
  constructor
  · intro B m c hs
    simp only [step]
    exact dispatch_end_count B _ _ hs
  · intro B m hs hd hdg
    obtain ⟨st, a, d, dg, tp, pend, cl, o⟩ := m
    dsimp only at hs hd hdg
    subst hs
    subst hd
    subst hdg
    simp [step, upper, dispatch, blockRun, parse_cmd]

/-- Witness for C10: a read-count step (no `endTransmission`), and a `P`
at power-on. -/
theorem C10_witness :
    ((step busZero { init with state := St.ST_CMDR } 55).calls.count
      BusCall.endTransmission) = init.calls.count BusCall.endTransmission ∧
    step busZero init 80 = { init with to_print := 32 } :=
  ⟨C10_thm.1 busZero { init with state := St.ST_CMDR } 55 (by decide),
   C10_thm.2 busZero init rfl rfl rfl⟩

/-- C9.  Every character step terminates: the goto chase from any entry
state completes within fuel 3 of the fuelled interpreter (the longest
chain is `ST_CMDR` → `recv_now` → `parse_cmd`), agrees with `dispatch`,
and re-dispatches the character against the command interpreter
(`parse_cmd`) at most once.  The `recv_now` block does not examine the
character; only the single `parse_cmd` entry does. -/
theorem C9_goto_bounded (B : BusBehavior) (m : M) (l : Nat) :
    ∃ k, interp B l 3 m (Lbl.entry m.state) = some (dispatch B m l, k) ∧
      k ≤ 1 := by
  rcases hb : blockRun B l m (.entry m.state) with ⟨m2, lab2⟩
  have hd : dispatch B m l =
      (match (m2, lab2) with
        | (m2, none) => m2
        | (m2, some Lbl.lparse) => parse_cmd m2 l
        | (m2, some Lbl.lrecv) => parse_cmd (recvBody m2) l
        | (m2, some (Lbl.entry _)) => m2) := by
    simp only [dispatch, hb]
  rcases lab2 with _ | (⟨s⟩ | _ | _)
  · refine ⟨0, ?_, by omega⟩
    rw [interp3_of_break B l m (Lbl.entry m.state) m2 hb, hd]
  · exfalso
    have hne := blockRun_no_entry B l m (Lbl.entry m.state) s
    rw [hb] at hne
    simp at hne
  · refine ⟨1, ?_, by omega⟩
    rw [interp3_of_parse B l m (Lbl.entry m.state) m2 hb, hd]
  · refine ⟨1, ?_, by omega⟩
    rw [interp3_of_recv B l m (Lbl.entry m.state) m2 hb, hd]

end I2Shell
